import Mathlib

/-!
Verification of the MealMax kitchen model (`meal_max/models/kitchen_model.py`).

The module is a data-access layer over a single SQLite relation `meals`.
We embed the database state as a list of rows plus an autoincrement counter,
and each public function as a pure function from the state to a result
together with the list of database actions it issued (SELECT / INSERT /
UPDATE / COMMIT), mirroring the statements the Python code executes.

Errors are Python `ValueError`s; the distinct message families are embedded
as distinct constructors of `Err` (invalid-input validation, duplicate name,
row not found, row soft-deleted).
-/

deriving instance DecidableEq for Except

namespace MealMax

/-- A persisted row of the `meals` relation.

Modelled from the spec: the relation schema itself (`id` unique key assigned
on creation, `meal` unique text, `deleted` boolean default false, `battles`
and `wins` integers default 0) is not part of the Python sources under
verification; its shape is taken from the spec's description of the
persisted schema.  Counters are naturals: the columns start at 0 and are
only ever incremented. -/
structure MealRow where
  id : Nat
  meal : String
  cuisine : String
  price : ℚ
  difficulty : String
  deleted : Bool
  battles : Nat
  wins : Nat
deriving DecidableEq, Repr

/-- The database state: the rows of `meals` in natural (insertion) order,
and the next id the store will assign. -/
structure Store where
  rows : List MealRow
  nextId : Nat
deriving DecidableEq, Repr

/-- The in-memory `Meal` dataclass (id, meal, cuisine, price, difficulty). -/
structure Meal where
  id : Nat
  meal : String
  cuisine : String
  price : ℚ
  difficulty : String
deriving DecidableEq, Repr

/-- The error kinds the module signals (all `ValueError` in Python,
distinguished by message). -/
inductive Err where
  | validation (msg : String)
  | duplicate (name : String)
  | notFound
  | deletedErr
deriving DecidableEq, Repr

/-- Database statements a call issues, in order. -/
inductive DbAction where
  | selectQ
  | insertQ
  | updateQ
  | commitQ
deriving DecidableEq, Repr

/-- `difficulty not in ['LOW', 'MED', 'HIGH']` test from the source. -/
def validDifficulty (d : String) : Bool :=
  d == "LOW" || d == "MED" || d == "HIGH"

/-- `Meal.__post_init__`: raises unless `price >= 0` — note the source checks
`self.price < 0`, not `<= 0` — and the difficulty is allowed. -/
def mkMeal (id : Nat) (meal cuisine : String) (price : ℚ) (difficulty : String) :
    Except Err Meal :=
  if price < 0 then
    .error (.validation "Price must be a positive value.")
  else if !(validDifficulty difficulty) then
    .error (.validation "Difficulty must be LOW, MED, or HIGH.")
  else
    .ok ⟨id, meal, cuisine, price, difficulty⟩

/-- `SELECT ... FROM meals WHERE id = ?` followed by `fetchone()`:
the first row with the given id, if any. -/
def findById (rows : List MealRow) (meal_id : Nat) : Option MealRow :=
  rows.find? (fun r => r.id == meal_id)

/-- `SELECT ... FROM meals WHERE meal = ?` followed by `fetchone()`. -/
def findByName (rows : List MealRow) (meal_name : String) : Option MealRow :=
  rows.find? (fun r => r.meal == meal_name)

/-- `create_meal`: validates price (`price <= 0` rejected) and difficulty
before touching the store; then inserts a fresh row with `deleted = false`
and both counters 0.  A name collision violates the schema's unique
constraint on `meal` (sqlite3.IntegrityError), re-signalled as the
duplicate-name error. -/
def create_meal (meal cuisine : String) (price : ℚ) (difficulty : String)
    (s : Store) : Except Err Store × List DbAction :=
  if price ≤ 0 then
    (.error (.validation "Invalid price. Price must be a positive number."), [])
  else if !(validDifficulty difficulty) then
    (.error (.validation "Invalid difficulty level."), [])
  else if s.rows.any (fun r => r.meal == meal) then
    (.error (.duplicate meal), [.insertQ])
  else
    (.ok ⟨s.rows ++ [⟨s.nextId, meal, cuisine, price, difficulty, false, 0, 0⟩],
          s.nextId + 1⟩,
     [.insertQ, .commitQ])

/-- `UPDATE meals SET deleted = TRUE WHERE id = ?` applied to one row. -/
def markDeleted (meal_id : Nat) (r : MealRow) : MealRow :=
  if r.id == meal_id then { r with deleted := true } else r

/-- `delete_meal`: looks up the deleted flag; unknown id fails not-found,
already-deleted id fails deleted; otherwise soft-deletes and commits. -/
def delete_meal (meal_id : Nat) (s : Store) :
    Except Err Store × List DbAction :=
  match findById s.rows meal_id with
  | none => (.error .notFound, [.selectQ])
  | some r =>
    if r.deleted then
      (.error .deletedErr, [.selectQ])
    else
      (.ok ⟨s.rows.map (markDeleted meal_id), s.nextId⟩,
       [.selectQ, .updateQ, .commitQ])

/-- `get_meal_by_id`: fetches the row; absent fails not-found, soft-deleted
fails deleted; otherwise constructs the `Meal` dataclass (running its
`__post_init__` validation). -/
def get_meal_by_id (meal_id : Nat) (s : Store) :
    Except Err Meal × List DbAction :=
  match findById s.rows meal_id with
  | none => (.error .notFound, [.selectQ])
  | some r =>
    if r.deleted then
      (.error .deletedErr, [.selectQ])
    else
      (mkMeal r.id r.meal r.cuisine r.price r.difficulty, [.selectQ])

/-- `get_meal_by_name`: same contract keyed by name. -/
def get_meal_by_name (meal_name : String) (s : Store) :
    Except Err Meal × List DbAction :=
  match findByName s.rows meal_name with
  | none => (.error .notFound, [.selectQ])
  | some r =>
    if r.deleted then
      (.error .deletedErr, [.selectQ])
    else
      (mkMeal r.id r.meal r.cuisine r.price r.difficulty, [.selectQ])

/-- `UPDATE meals SET battles = battles + 1, wins = wins + 1 WHERE id = ?`
applied to one row. -/
def bumpWin (meal_id : Nat) (r : MealRow) : MealRow :=
  if r.id == meal_id then
    { r with battles := r.battles + 1, wins := r.wins + 1 }
  else r

/-- `UPDATE meals SET battles = battles + 1 WHERE id = ?` applied to one row. -/
def bumpLoss (meal_id : Nat) (r : MealRow) : MealRow :=
  if r.id == meal_id then { r with battles := r.battles + 1 } else r

/-- `update_meal_stats`: the SELECT on the deleted flag runs first on every
path; then the outcome string is dispatched — `win` bumps battles and wins,
`loss` bumps battles only, anything else raises the invalid-result
`ValueError` with no UPDATE and no commit. -/
def update_meal_stats (meal_id : Nat) (result : String) (s : Store) :
    Except Err Store × List DbAction :=
  match findById s.rows meal_id with
  | none => (.error .notFound, [.selectQ])
  | some r =>
    if r.deleted then
      (.error .deletedErr, [.selectQ])
    else if result == "win" then
      (.ok ⟨s.rows.map (bumpWin meal_id), s.nextId⟩,
       [.selectQ, .updateQ, .commitQ])
    else if result == "loss" then
      (.ok ⟨s.rows.map (bumpLoss meal_id), s.nextId⟩,
       [.selectQ, .updateQ, .commitQ])
    else
      (.error (.validation "Invalid result. Expected win or loss."), [.selectQ])

/-- One leaderboard entry, as the dict built per row by `get_leaderboard`. -/
structure LeaderboardEntry where
  id : Nat
  meal : String
  cuisine : String
  price : ℚ
  difficulty : String
  battles : Nat
  wins : Nat
  win_pct : ℚ
deriving DecidableEq, Repr

/-- `wins * 1.0 / battles`, the raw ratio the query computes per row. -/
def winRatio (r : MealRow) : ℚ := (r.wins : ℚ) / (r.battles : ℚ)

/-- Python `round` to an integer: round-half-to-even. -/
def roundHalfEven (q : ℚ) : ℤ :=
  if q - q.floor < 1 / 2 then q.floor
  else if 1 / 2 < q - q.floor then q.floor + 1
  else if q.floor % 2 = 0 then q.floor else q.floor + 1

/-- Python `round(x, 1)`: round to one decimal place. -/
def roundTenth (q : ℚ) : ℚ := (roundHalfEven (10 * q) : ℚ) / 10

/-- The dict built for each fetched row: all columns plus
`round(win_pct * 100, 1)`. -/
def rowToEntry (r : MealRow) : LeaderboardEntry :=
  ⟨r.id, r.meal, r.cuisine, r.price, r.difficulty, r.battles, r.wins,
   roundTenth (winRatio r * 100)⟩

/-- `WHERE deleted = false AND battles > 0`, in natural row order. -/
def leaderRows (s : Store) : List MealRow :=
  s.rows.filter (fun r => !r.deleted && decide (0 < r.battles))

/-- `ORDER BY wins DESC` comparison. -/
def winsGE (a b : MealRow) : Prop := b.wins ≤ a.wins

/-- `ORDER BY win_pct DESC` comparison (on the raw, unrounded ratio). -/
def ratioGE (a b : MealRow) : Prop := winRatio b ≤ winRatio a

instance : DecidableRel winsGE := fun a b => Nat.decLe b.wins a.wins

instance : DecidableRel ratioGE := fun a b =>
  inferInstanceAs (Decidable (winRatio b ≤ winRatio a))

instance : IsTotal MealRow winsGE := ⟨fun a b => le_total b.wins a.wins⟩

instance : IsTrans MealRow winsGE :=
  ⟨fun _ _ _ h1 h2 => le_trans h2 h1⟩

instance : IsTotal MealRow ratioGE := ⟨fun a b => le_total (winRatio b) (winRatio a)⟩

instance : IsTrans MealRow ratioGE :=
  ⟨fun _ _ _ h1 h2 => le_trans h2 h1⟩

/-- `get_leaderboard`: the sort key is checked before any connection is
acquired (an unknown key raises with no query); otherwise the single query
selects the qualifying rows ordered descending by the chosen metric, and
each row becomes a dict carrying the percentage rounded to one decimal. -/
def get_leaderboard (sort_by : String) (s : Store) :
    Except Err (List LeaderboardEntry) × List DbAction :=
  if sort_by == "win_pct" then
    (.ok ((List.insertionSort ratioGE (leaderRows s)).map rowToEntry), [.selectQ])
  else if sort_by == "wins" then
    (.ok ((List.insertionSort winsGE (leaderRows s)).map rowToEntry), [.selectQ])
  else
    (.error (.validation "Invalid sort_by parameter."), [])

/-- The states reachable from an empty store through the mutating public
operations. -/
inductive Reachable : Store → Prop where
  | empty : Reachable ⟨[], 1⟩
  | create (s s' : Store) (meal cuisine : String) (price : ℚ) (difficulty : String) :
      Reachable s → (create_meal meal cuisine price difficulty s).1 = .ok s' →
      Reachable s'
  | del (s s' : Store) (meal_id : Nat) :
      Reachable s → (delete_meal meal_id s).1 = .ok s' → Reachable s'
  | update (s s' : Store) (meal_id : Nat) (result : String) :
      Reachable s → (update_meal_stats meal_id result s).1 = .ok s' →
      Reachable s'

/-! ### Helper lemmas -/

theorem ratFloor_eq_intFloor (q : ℚ) : q.floor = ⌊q⌋ :=
  (Rat.floor_def' q).trans Rat.floor_def.symm

theorem markDeleted_id (meal_id : Nat) (r : MealRow) :
    (markDeleted meal_id r).id = r.id := by
  unfold markDeleted; split <;> rfl

theorem bumpWin_id (meal_id : Nat) (r : MealRow) :
    (bumpWin meal_id r).id = r.id := by
  unfold bumpWin; split <;> rfl

theorem bumpLoss_id (meal_id : Nat) (r : MealRow) :
    (bumpLoss meal_id r).id = r.id := by
  unfold bumpLoss; split <;> rfl

theorem findById_map (f : MealRow → MealRow) (hf : ∀ r, (f r).id = r.id)
    (l : List MealRow) (meal_id : Nat) :
    findById (l.map f) meal_id = (findById l meal_id).map f := by
  unfold findById
  rw [List.find?_map]
  have hp : ((fun r : MealRow => r.id == meal_id) ∘ f) =
      fun r : MealRow => r.id == meal_id := by
    funext r
    simp [Function.comp, hf]
  rw [hp]

/-! ### Claim theorems -/

/-- C1: for every existing, non-deleted meal id, `update_meal_stats` with
`win` bumps that row's battles and wins by exactly 1 (other rows untouched),
with `loss` bumps battles only, and with any other outcome string it fails
with the invalid-result validation error. -/
theorem updateStats_win_loss_validation (s : Store) (meal_id : Nat) (r : MealRow)
    (hfind : findById s.rows meal_id = some r) (hdel : r.deleted = false) :
    (update_meal_stats meal_id "win" s).1 =
      .ok ⟨s.rows.map (bumpWin meal_id), s.nextId⟩ ∧
    (update_meal_stats meal_id "loss" s).1 =
      .ok ⟨s.rows.map (bumpLoss meal_id), s.nextId⟩ ∧
    (∀ x : MealRow, x.id = meal_id →
      (bumpWin meal_id x).battles = x.battles + 1 ∧
      (bumpWin meal_id x).wins = x.wins + 1 ∧
      (bumpLoss meal_id x).battles = x.battles + 1 ∧
      (bumpLoss meal_id x).wins = x.wins) ∧
    (∀ x : MealRow, x.id ≠ meal_id → bumpWin meal_id x = x ∧ bumpLoss meal_id x = x) ∧
    (∀ result : String, result ≠ "win" → result ≠ "loss" →
      (update_meal_stats meal_id result s).1 =
        .error (Err.validation "Invalid result. Expected win or loss.")) := by
  refine ⟨?_, ?_, ?_, ?_, ?_⟩
  · simp [update_meal_stats, hfind, hdel]
  · simp [update_meal_stats, hfind, hdel]
  · intro x hx
    simp [bumpWin, bumpLoss, hx]
  · intro x hx
    simp [bumpWin, bumpLoss, hx]
  · intro result h1 h2
    simp [update_meal_stats, hfind, hdel, h1, h2]

def rowManti : MealRow := ⟨1, "Manti", "Turkish", 13, "MED", false, 2, 1⟩

def storeManti : Store := ⟨[rowManti], 2⟩

/-- Witness for C1 at a concrete one-row store. -/
theorem updateStats_win_loss_validation_witness :
    findById storeManti.rows 1 = some rowManti ∧ rowManti.deleted = false ∧
    ((update_meal_stats 1 "win" storeManti).1 =
      .ok ⟨storeManti.rows.map (bumpWin 1), storeManti.nextId⟩ ∧
    (update_meal_stats 1 "loss" storeManti).1 =
      .ok ⟨storeManti.rows.map (bumpLoss 1), storeManti.nextId⟩ ∧
    (∀ x : MealRow, x.id = 1 →
      (bumpWin 1 x).battles = x.battles + 1 ∧
      (bumpWin 1 x).wins = x.wins + 1 ∧
      (bumpLoss 1 x).battles = x.battles + 1 ∧
      (bumpLoss 1 x).wins = x.wins) ∧
    (∀ x : MealRow, x.id ≠ 1 → bumpWin 1 x = x ∧ bumpLoss 1 x = x) ∧
    (∀ result : String, result ≠ "win" → result ≠ "loss" →
      (update_meal_stats 1 result storeManti).1 =
        .error (Err.validation "Invalid result. Expected win or loss."))) :=
  ⟨by decide, by decide,
   updateStats_win_loss_validation storeManti 1 rowManti (by decide) (by decide)⟩

/-- C5 (divergence at the failing input): constructing the `Meal` dataclass
with price 0 is accepted — `Meal.__post_init__` checks `price < 0` — even
though `create_meal` rejects price 0 and the dataclass's own docstring and
error message demand a strictly positive price. -/
theorem meal_construction_accepts_price_zero :
    mkMeal 1 "Bread" "Turkish" 0 "LOW" = .ok ⟨1, "Bread", "Turkish", 0, "LOW"⟩ ∧
    (create_meal "Bread" "Turkish" 0 "LOW" ⟨[], 1⟩).1 =
      .error (Err.validation "Invalid price. Price must be a positive number.") := by
  exact ⟨by decide, by decide⟩

/-- C6: in `update_meal_stats` the lookup SELECT is issued first on every
path, and for an invalid outcome string the absent-id and soft-deleted
errors take precedence over the validation error, which is raised only
when the lookup found a live row. -/
theorem updateStats_lookup_precedes_validation (s : Store) (meal_id : Nat)
    (result : String) (h1 : result ≠ "win") (h2 : result ≠ "loss") :
    (∀ res : String,
      (update_meal_stats meal_id res s).2.head? = some DbAction.selectQ) ∧
    (findById s.rows meal_id = none →
      update_meal_stats meal_id result s = (.error Err.notFound, [DbAction.selectQ])) ∧
    (∀ r : MealRow, findById s.rows meal_id = some r → r.deleted = true →
      update_meal_stats meal_id result s = (.error Err.deletedErr, [DbAction.selectQ])) ∧
    (∀ r : MealRow, findById s.rows meal_id = some r → r.deleted = false →
      update_meal_stats meal_id result s =
        (.error (Err.validation "Invalid result. Expected win or loss."),
         [DbAction.selectQ])) ∧
    (∀ msg : String, Err.notFound ≠ Err.validation msg ∧
      Err.deletedErr ≠ Err.validation msg) := by
  refine ⟨?_, ?_, ?_, ?_, ?_⟩
  · intro res
    unfold update_meal_stats
    cases hf : findById s.rows meal_id with
    | none => simp
    | some r =>
      by_cases hd : r.deleted = true
      · simp [hd]
      · by_cases hw : res = "win"
        · simp [hd, hw]
        · by_cases hl : res = "loss"
          · simp [hd, hw, hl]
          · simp [hd, hw, hl]
  · intro hf
    simp [update_meal_stats, hf]
  · intro r hf hd
    simp [update_meal_stats, hf, hd]
  · intro r hf hd
    simp [update_meal_stats, hf, hd, h1, h2]
  · intro msg
    exact ⟨by simp, by simp⟩

/-- Witness for C6 at a concrete store and the outcome string `draw`. -/
theorem updateStats_lookup_precedes_validation_witness :
    ("draw" : String) ≠ "win" ∧ ("draw" : String) ≠ "loss" ∧
    ((∀ res : String,
      (update_meal_stats 1 res storeManti).2.head? = some DbAction.selectQ) ∧
    (findById storeManti.rows 1 = none →
      update_meal_stats 1 "draw" storeManti = (.error Err.notFound, [DbAction.selectQ])) ∧
    (∀ r : MealRow, findById storeManti.rows 1 = some r → r.deleted = true →
      update_meal_stats 1 "draw" storeManti = (.error Err.deletedErr, [DbAction.selectQ])) ∧
    (∀ r : MealRow, findById storeManti.rows 1 = some r → r.deleted = false →
      update_meal_stats 1 "draw" storeManti =
        (.error (Err.validation "Invalid result. Expected win or loss."),
         [DbAction.selectQ])) ∧
    (∀ msg : String, Err.notFound ≠ Err.validation msg ∧
      Err.deletedErr ≠ Err.validation msg)) :=
  ⟨by decide, by decide,
   updateStats_lookup_precedes_validation storeManti 1 "draw" (by decide) (by decide)⟩

/-- C10: when `update_meal_stats` rejects an outcome string, the call has
issued only the read-only lookup — no UPDATE, no commit — and returns an
error, leaving the store unchanged. -/
theorem updateStats_invalid_result_no_write (s : Store) (meal_id : Nat)
    (result : String) (h1 : result ≠ "win") (h2 : result ≠ "loss") :
    (update_meal_stats meal_id result s).2 = [DbAction.selectQ] ∧
    (∃ e : Err, (update_meal_stats meal_id result s).1 = .error e) ∧
    DbAction.updateQ ∉ (update_meal_stats meal_id result s).2 ∧
    DbAction.commitQ ∉ (update_meal_stats meal_id result s).2 := by
  have hmain : (update_meal_stats meal_id result s).2 = [DbAction.selectQ] ∧
      ∃ e : Err, (update_meal_stats meal_id result s).1 = .error e := by
    unfold update_meal_stats
    cases hf : findById s.rows meal_id with
    | none => simp
    | some r =>
      by_cases hd : r.deleted = true
      · simp [hd]
      · simp [hd, h1, h2]
  refine ⟨hmain.1, hmain.2, ?_, ?_⟩
  · rw [hmain.1]; simp
  · rw [hmain.1]; simp

/-- Witness for C10 at a concrete store and the outcome string `draw`. -/
theorem updateStats_invalid_result_no_write_witness :
    ("draw" : String) ≠ "win" ∧ ("draw" : String) ≠ "loss" ∧
    ((update_meal_stats 1 "draw" storeManti).2 = [DbAction.selectQ] ∧
    (∃ e : Err, (update_meal_stats 1 "draw" storeManti).1 = .error e) ∧
    DbAction.updateQ ∉ (update_meal_stats 1 "draw" storeManti).2 ∧
    DbAction.commitQ ∉ (update_meal_stats 1 "draw" storeManti).2) :=
  ⟨by decide, by decide,
   updateStats_invalid_result_no_write storeManti 1 "draw" (by decide) (by decide)⟩

/-- C4: deleting an unknown id fails not-found; deleting an already
soft-deleted id fails with the distinct deleted error; and after a
successful delete, `get_meal_by_id` on that id fails with the deleted
error. -/
theorem delete_error_taxonomy (s : Store) (meal_id : Nat) :
    (findById s.rows meal_id = none →
      delete_meal meal_id s = (.error Err.notFound, [DbAction.selectQ])) ∧
    (∀ r : MealRow, findById s.rows meal_id = some r → r.deleted = true →
      delete_meal meal_id s = (.error Err.deletedErr, [DbAction.selectQ]) ∧
      Err.deletedErr ≠ Err.notFound) ∧
    (∀ r : MealRow, findById s.rows meal_id = some r → r.deleted = false →
      ∃ s' : Store, (delete_meal meal_id s).1 = .ok s' ∧
        (get_meal_by_id meal_id s').1 = .error Err.deletedErr) := by
  refine ⟨?_, ?_, ?_⟩
  · intro hf
    simp [delete_meal, hf]
  · intro r hf hd
    exact ⟨by simp [delete_meal, hf, hd], by simp⟩
  · intro r hf hd
    refine ⟨⟨s.rows.map (markDeleted meal_id), s.nextId⟩,
            by simp [delete_meal, hf, hd], ?_⟩
    have hf' : List.find? (fun x : MealRow => x.id == meal_id) s.rows = some r := hf
    have hpred : (r.id == meal_id) = true := by
      have h := List.find?_some hf'
      exact h
    have hfd : findById (s.rows.map (markDeleted meal_id)) meal_id =
        some (markDeleted meal_id r) := by
      rw [findById_map (markDeleted meal_id) (markDeleted_id meal_id), hf]
      rfl
    simp [get_meal_by_id, hfd, markDeleted, hpred]

/-- Witness for C4: unknown id 2, and the full delete-then-get cycle on the
live row with id 1. -/
theorem delete_error_taxonomy_witness :
    findById storeManti.rows 2 = none ∧
    delete_meal 2 storeManti = (.error Err.notFound, [DbAction.selectQ]) ∧
    findById storeManti.rows 1 = some rowManti ∧ rowManti.deleted = false ∧
    ∃ s' : Store, (delete_meal 1 storeManti).1 = .ok s' ∧
      (get_meal_by_id 1 s').1 = .error Err.deletedErr :=
  ⟨by decide, (delete_error_taxonomy storeManti 2).1 (by decide),
   by decide, by decide,
   (delete_error_taxonomy storeManti 1).2.2 rowManti (by decide) (by decide)⟩

/-- C3 counterexample: with a positive price and an allowed difficulty,
`create_meal` still fails — with the duplicate-name error, not success —
when the store already holds a meal of that name (schema unique constraint,
re-signalled from sqlite3.IntegrityError). -/
theorem create_valid_input_duplicate_name_fails :
    (0 : ℚ) < 13 ∧ validDifficulty "LOW" = true ∧
    (create_meal "Manti" "Turkish" 13 "LOW" storeManti).1 =
      .error (Err.duplicate "Manti") :=
  ⟨by decide, by decide, by decide⟩

/-- C3 amended: a non-positive price is rejected with the validation error
before any database action; and for a positive price, an allowed
difficulty, and a name not already present, creation succeeds and appends
a fresh row with battles 0, wins 0 and deleted false. -/
theorem create_validation_and_success (s : Store) (meal cuisine : String)
    (price : ℚ) (difficulty : String) :
    (price ≤ 0 →
      create_meal meal cuisine price difficulty s =
        (.error (Err.validation "Invalid price. Price must be a positive number."),
         [])) ∧
    (0 < price → validDifficulty difficulty = true →
      (∀ r ∈ s.rows, r.meal ≠ meal) →
      (create_meal meal cuisine price difficulty s).1 =
        .ok ⟨s.rows ++ [⟨s.nextId, meal, cuisine, price, difficulty, false, 0, 0⟩],
             s.nextId + 1⟩) := by
  constructor
  · intro hp
    simp [create_meal, hp]
  · intro hp hd hfresh
    have hp' : ¬price ≤ 0 := not_le.mpr hp
    have hany : (s.rows.any fun r => r.meal == meal) = false := by
      simp only [List.any_eq_false]
      intro r hr
      simp [hfresh r hr]
    simp [create_meal, hp', hd, hany]

/-- Witness for C3 (amended) at the empty store: price 0 is rejected with
no action issued, and price 13 with difficulty LOW inserts the fresh row. -/
theorem create_validation_and_success_witness :
    ((0 : ℚ) ≤ 0 ∧
     create_meal "Pide" "Turkish" 0 "LOW" ⟨[], 1⟩ =
       (.error (Err.validation "Invalid price. Price must be a positive number."),
        [])) ∧
    ((0 : ℚ) < 13 ∧ validDifficulty "LOW" = true ∧
     (∀ r ∈ (⟨[], 1⟩ : Store).rows, r.meal ≠ "Pide") ∧
     (create_meal "Pide" "Turkish" 13 "LOW" ⟨[], 1⟩).1 =
       .ok ⟨[⟨1, "Pide", "Turkish", 13, "LOW", false, 0, 0⟩], 2⟩) :=
  ⟨⟨by decide,
    (create_validation_and_success ⟨[], 1⟩ "Pide" "Turkish" 0 "LOW").1 (by decide)⟩,
   ⟨by decide, by decide, by decide,
    by simpa using
      (create_validation_and_success ⟨[], 1⟩ "Pide" "Turkish" 13 "LOW").2
        (by decide) (by decide) (by decide)⟩⟩

/-- C7: creating a meal with valid inputs and a fresh name, then retrieving
it by the id the store assigned and by its name, both succeed and return
the very field values given at creation. -/
theorem create_then_get_roundtrip (s : Store) (meal cuisine : String)
    (price : ℚ) (difficulty : String)
    (hp : 0 < price) (hd : validDifficulty difficulty = true)
    (hfresh : ∀ r ∈ s.rows, r.meal ≠ meal)
    (hid : ∀ r ∈ s.rows, r.id ≠ s.nextId) :
    ∃ s' : Store, (create_meal meal cuisine price difficulty s).1 = .ok s' ∧
      (get_meal_by_id s.nextId s').1 =
        .ok ⟨s.nextId, meal, cuisine, price, difficulty⟩ ∧
      (get_meal_by_name meal s').1 =
        .ok ⟨s.nextId, meal, cuisine, price, difficulty⟩ := by
  refine ⟨⟨s.rows ++ [⟨s.nextId, meal, cuisine, price, difficulty, false, 0, 0⟩],
           s.nextId + 1⟩,
          (create_validation_and_success s meal cuisine price difficulty).2 hp hd hfresh,
          ?_, ?_⟩
  · have h1 : List.find? (fun x : MealRow => x.id == s.nextId) s.rows = none := by
      rw [List.find?_eq_none]
      intro x hx
      simp [hid x hx]
    have h2 : findById
        (s.rows ++ [⟨s.nextId, meal, cuisine, price, difficulty, false, 0, 0⟩])
        s.nextId = some ⟨s.nextId, meal, cuisine, price, difficulty, false, 0, 0⟩ := by
      unfold findById
      rw [List.find?_append, h1]
      simp [List.find?]
    have hnp : ¬price < 0 := not_lt.mpr (le_of_lt hp)
    simp [get_meal_by_id, h2, mkMeal, hnp, hd]
  · have h1 : List.find? (fun x : MealRow => x.meal == meal) s.rows = none := by
      rw [List.find?_eq_none]
      intro x hx
      simp [hfresh x hx]
    have h2 : findByName
        (s.rows ++ [⟨s.nextId, meal, cuisine, price, difficulty, false, 0, 0⟩])
        meal = some ⟨s.nextId, meal, cuisine, price, difficulty, false, 0, 0⟩ := by
      unfold findByName
      rw [List.find?_append, h1]
      simp [List.find?]
    have hnp : ¬price < 0 := not_lt.mpr (le_of_lt hp)
    simp [get_meal_by_name, h2, mkMeal, hnp, hd]

/-- Witness for C7: create Pide in the empty store, then read it back by
id 1 and by name. -/
theorem create_then_get_roundtrip_witness :
    (0 : ℚ) < 13 ∧ validDifficulty "LOW" = true ∧
    (∀ r ∈ (⟨[], 1⟩ : Store).rows, r.meal ≠ "Pide") ∧
    (∀ r ∈ (⟨[], 1⟩ : Store).rows, r.id ≠ (⟨[], 1⟩ : Store).nextId) ∧
    (∃ s' : Store, (create_meal "Pide" "Turkish" 13 "LOW" ⟨[], 1⟩).1 = .ok s' ∧
      (get_meal_by_id 1 s').1 = .ok ⟨1, "Pide", "Turkish", 13, "LOW"⟩ ∧
      (get_meal_by_name "Pide" s').1 = .ok ⟨1, "Pide", "Turkish", 13, "LOW"⟩) :=
  ⟨by decide, by decide, by decide, by decide,
   create_then_get_roundtrip ⟨[], 1⟩ "Pide" "Turkish" 13 "LOW"
     (by decide) (by decide) (by decide) (by decide)⟩

/-- C8: an unknown sort key makes `get_leaderboard` fail with the
validation error while issuing no database action at all, independently of
the store state. -/
theorem leaderboard_invalid_sort (s t : Store) (sort_by : String)
    (h1 : sort_by ≠ "wins") (h2 : sort_by ≠ "win_pct") :
    get_leaderboard sort_by s =
      (.error (Err.validation "Invalid sort_by parameter."), []) ∧
    (get_leaderboard sort_by s).1 = (get_leaderboard sort_by t).1 ∧
    (get_leaderboard sort_by s).2 = [] := by
  have hs : get_leaderboard sort_by s =
      (.error (Err.validation "Invalid sort_by parameter."), []) := by
    simp [get_leaderboard, h1, h2]
  have ht : get_leaderboard sort_by t =
      (.error (Err.validation "Invalid sort_by parameter."), []) := by
    simp [get_leaderboard, h1, h2]
  exact ⟨hs, by rw [hs, ht], by rw [hs]⟩

/-- Witness for C8 with the sort key `bogus` on two different stores. -/
theorem leaderboard_invalid_sort_witness :
    ("bogus" : String) ≠ "wins" ∧ ("bogus" : String) ≠ "win_pct" ∧
    (get_leaderboard "bogus" storeManti =
      (.error (Err.validation "Invalid sort_by parameter."), []) ∧
    (get_leaderboard "bogus" storeManti).1 = (get_leaderboard "bogus" ⟨[], 1⟩).1 ∧
    (get_leaderboard "bogus" storeManti).2 = []) :=
  ⟨by decide, by decide,
   leaderboard_invalid_sort storeManti ⟨[], 1⟩ "bogus" (by decide) (by decide)⟩

/-- C9: in every state reachable from the empty store through the public
operations, every row satisfies battles ≥ 0, wins ≥ 0 and wins ≤ battles. -/
theorem reachable_counters_invariant (s : Store) (hs : Reachable s) :
    ∀ r ∈ s.rows, 0 ≤ r.battles ∧ 0 ≤ r.wins ∧ r.wins ≤ r.battles := by
  induction hs with
  | empty =>
    intro r hr
    simp at hr
  | create s0 s' meal cuisine price difficulty h hok ih =>
    unfold create_meal at hok
    split at hok
    · simp at hok
    · split at hok
      · simp at hok
      · split at hok
        · simp at hok
        · simp only at hok
          rw [Except.ok.injEq] at hok
          subst hok
          intro r hr
          rcases List.mem_append.1 hr with h' | h'
          · exact ih r h'
          · simp only [List.mem_singleton] at h'
            subst h'
            exact ⟨Nat.zero_le _, Nat.zero_le _, Nat.le_refl _⟩
  | del s0 s' meal_id h hok ih =>
    unfold delete_meal at hok
    split at hok
    · simp at hok
    · split at hok
      · simp at hok
      · simp only at hok
        rw [Except.ok.injEq] at hok
        subst hok
        intro r hr
        rcases List.mem_map.1 hr with ⟨x, hx, rfl⟩
        have hxinv := ih x hx
        unfold markDeleted
        split
        · exact hxinv
        · exact hxinv
  | update s0 s' meal_id result h hok ih =>
    unfold update_meal_stats at hok
    split at hok
    · simp at hok
    · split at hok
      · simp at hok
      · split at hok
        · simp only at hok
          rw [Except.ok.injEq] at hok
          subst hok
          intro r hr
          rcases List.mem_map.1 hr with ⟨x, hx, rfl⟩
          have hxinv := ih x hx
          unfold bumpWin
          split
          · exact ⟨Nat.zero_le _, Nat.zero_le _, Nat.succ_le_succ hxinv.2.2⟩
          · exact hxinv
        · split at hok
          · simp only at hok
            rw [Except.ok.injEq] at hok
            subst hok
            intro r hr
            rcases List.mem_map.1 hr with ⟨x, hx, rfl⟩
            have hxinv := ih x hx
            unfold bumpLoss
            split
            · exact ⟨Nat.zero_le _, Nat.zero_le _, Nat.le_succ_of_le hxinv.2.2⟩
            · exact hxinv
          · simp at hok

def rowPide : MealRow := ⟨1, "Pide", "Turkish", 13, "LOW", false, 1, 1⟩

def storePide0 : Store := ⟨[⟨1, "Pide", "Turkish", 13, "LOW", false, 0, 0⟩], 2⟩

def storePide : Store := ⟨[rowPide], 2⟩

/-- Witness for C9: the state reached by creating Pide and recording one
win is reachable and its row satisfies the counter invariants. -/
theorem reachable_counters_invariant_witness :
    Reachable storePide ∧
    0 ≤ rowPide.battles ∧ 0 ≤ rowPide.wins ∧ rowPide.wins ≤ rowPide.battles := by
  have h0 : Reachable ⟨[], 1⟩ := .empty
  have h1 : Reachable storePide0 :=
    .create ⟨[], 1⟩ storePide0 "Pide" "Turkish" 13 "LOW" h0 (by decide)
  have h2 : Reachable storePide :=
    .update storePide0 storePide 1 "win" h1 (by decide)
  exact ⟨h2, reachable_counters_invariant storePide h2 rowPide (by decide)⟩

/-- The metric a leaderboard entry was ordered by: wins, or the win ratio
reconstructed from the entry's own counters. -/
def entryMetric (sort_by : String) (e : LeaderboardEntry) : ℚ :=
  if sort_by = "wins" then (e.wins : ℚ) else (e.wins : ℚ) / (e.battles : ℚ)

theorem roundTenth_eighty : roundTenth ((4 / 5 : ℚ) * 100) = 80 := by
  have h1 : ((4 / 5 : ℚ) * 100) = 80 := by norm_num
  rw [h1]
  unfold roundTenth roundHalfEven
  have h2 : ((10 : ℚ) * 80) = 800 := by norm_num
  rw [h2, ratFloor_eq_intFloor]
  have h3 : ⌊(800 : ℚ)⌋ = 800 := by norm_num
  rw [h3, if_pos (by norm_num)]
  norm_num

/-- C2: for a valid sort key, the leaderboard is exactly the image of the
non-deleted, battle-tested rows, in descending order of the chosen metric,
and every entry carries the row's fields together with the ratio as a
percentage rounded to one decimal (ratio 4/5 giving 80). -/
theorem leaderboard_contents_and_order (s : Store) (sort_by : String)
    (hsb : sort_by = "wins" ∨ sort_by = "win_pct") :
    ∃ l : List LeaderboardEntry,
      (get_leaderboard sort_by s).1 = .ok l ∧
      l.Perm ((leaderRows s).map rowToEntry) ∧
      l.Pairwise (fun a b => entryMetric sort_by b ≤ entryMetric sort_by a) ∧
      (∀ e ∈ l, ∃ r : MealRow, r ∈ s.rows ∧ r.deleted = false ∧ 0 < r.battles ∧
        e.id = r.id ∧ e.meal = r.meal ∧ e.cuisine = r.cuisine ∧
        e.price = r.price ∧ e.difficulty = r.difficulty ∧
        e.battles = r.battles ∧ e.wins = r.wins ∧
        e.win_pct = roundTenth (winRatio r * 100)) ∧
      roundTenth ((4 / 5 : ℚ) * 100) = 80 := by
  rcases hsb with h | h
  · subst h
    refine ⟨(List.insertionSort winsGE (leaderRows s)).map rowToEntry,
            by simp [get_leaderboard], ?_, ?_, ?_, roundTenth_eighty⟩
    · exact (List.perm_insertionSort winsGE (leaderRows s)).map rowToEntry
    · have hsort := List.sorted_insertionSort winsGE (leaderRows s)
      refine List.Pairwise.map rowToEntry ?_ hsort
      intro a b hab
      simpa [entryMetric, rowToEntry] using Nat.cast_le.mpr hab
    · intro e he
      rcases List.mem_map.1 he with ⟨r, hr, rfl⟩
      have hr' : r ∈ s.rows.filter
          (fun x => !x.deleted && decide (0 < x.battles)) :=
        (List.mem_insertionSort winsGE).1 hr
      rcases List.mem_filter.1 hr' with ⟨hmem, hcond⟩
      simp only [Bool.and_eq_true, Bool.not_eq_true', decide_eq_true_eq] at hcond
      exact ⟨r, hmem, hcond.1, hcond.2, rfl, rfl, rfl, rfl, rfl, rfl, rfl, rfl⟩
  · subst h
    refine ⟨(List.insertionSort ratioGE (leaderRows s)).map rowToEntry,
            by simp [get_leaderboard], ?_, ?_, ?_, roundTenth_eighty⟩
    · exact (List.perm_insertionSort ratioGE (leaderRows s)).map rowToEntry
    · have hsort := List.sorted_insertionSort ratioGE (leaderRows s)
      refine List.Pairwise.map rowToEntry ?_ hsort
      intro a b hab
      simpa [entryMetric, rowToEntry, winRatio] using hab
    · intro e he
      rcases List.mem_map.1 he with ⟨r, hr, rfl⟩
      have hr' : r ∈ s.rows.filter
          (fun x => !x.deleted && decide (0 < x.battles)) :=
        (List.mem_insertionSort ratioGE).1 hr
      rcases List.mem_filter.1 hr' with ⟨hmem, hcond⟩
      simp only [Bool.and_eq_true, Bool.not_eq_true', decide_eq_true_eq] at hcond
      exact ⟨r, hmem, hcond.1, hcond.2, rfl, rfl, rfl, rfl, rfl, rfl, rfl, rfl⟩

/-- Witness for C2 on a two-row store (10 battles 8 wins, 8 battles 6 wins)
with the `wins` sort key. -/
theorem leaderboard_contents_and_order_witness :
    (("wins" : String) = "wins" ∨ ("wins" : String) = "win_pct") ∧
    (∃ l : List LeaderboardEntry,
      (get_leaderboard "wins"
        ⟨[⟨1, "Manti", "Turkish", 13, "MED", false, 10, 8⟩,
          ⟨2, "Sushi", "Japanese", 16, "HIGH", false, 8, 6⟩], 3⟩).1 = .ok l ∧
      l.Perm ((leaderRows
        ⟨[⟨1, "Manti", "Turkish", 13, "MED", false, 10, 8⟩,
          ⟨2, "Sushi", "Japanese", 16, "HIGH", false, 8, 6⟩], 3⟩).map rowToEntry) ∧
      l.Pairwise (fun a b => entryMetric "wins" b ≤ entryMetric "wins" a) ∧
      (∀ e ∈ l, ∃ r : MealRow,
        r ∈ (⟨[⟨1, "Manti", "Turkish", 13, "MED", false, 10, 8⟩,
               ⟨2, "Sushi", "Japanese", 16, "HIGH", false, 8, 6⟩], 3⟩ : Store).rows ∧
        r.deleted = false ∧ 0 < r.battles ∧
        e.id = r.id ∧ e.meal = r.meal ∧ e.cuisine = r.cuisine ∧
        e.price = r.price ∧ e.difficulty = r.difficulty ∧
        e.battles = r.battles ∧ e.wins = r.wins ∧
        e.win_pct = roundTenth (winRatio r * 100)) ∧
      roundTenth ((4 / 5 : ℚ) * 100) = 80) :=
  ⟨Or.inl rfl,
   leaderboard_contents_and_order
     ⟨[⟨1, "Manti", "Turkish", 13, "MED", false, 10, 8⟩,
       ⟨2, "Sushi", "Japanese", 16, "HIGH", false, 8, 6⟩], 3⟩ "wins" (Or.inl rfl)⟩

end MealMax
